import Mathlib

/-!
Shallow embedding of `met-damm-liquidity-shaker` (src/helpers.ts, src/main.ts).

The repository drives the lifecycle of one liquidity position: check for an
existing position, otherwise create one and add liquidity, then remove all
liquidity and close it.  The core in scope is the generic `retry`
exponential-backoff primitive, the `addSlippage` integer helper, the
`createPosition` read-after-write visibility loop, the `closePosition`
zero-threshold close with a single verification read, and the `main` driver.

Modelling choices:
* `retry` (src/helpers.ts lines 219-257) is an async JS loop.  We model the
  callback as a function from the attempt index (0-based) to `Except E T`:
  attempt `n` either throws an error or returns a value.  The loop becomes a
  fuel-based recursion where the fuel is the remaining number of loop
  iterations, `(maxRetries + 1).toNat` initially (the JS loop
  `for (attempt = 0; attempt <= maxRetries; attempt++)` runs exactly
  `max(0, maxRetries + 1)` times absent an early return/throw; `maxRetries`
  is kept as an `Int` so that negative values, outside the spec's
  precondition, stay expressible).  The trace records the returned value or
  thrown error (`Except (Option E) T`, where `Except.error none` models the
  trailing `throw lastError` firing with `lastError` still `undefined`), the
  list of milliseconds passed to `sleep` in order, the number of callback
  invocations, and whether the trailing post-loop `throw` executed.
* `bn.js` arithmetic on the non-negative amounts used here is exact integer
  arithmetic with truncating division, i.e. `Nat` arithmetic.
* Ledger reads (`getPositionsByUser`) are modelled as a function from the
  read index to the returned list; writes are recorded in the output trace.
-/

namespace MetDamm

/-- RetryOptions from src/helpers.ts lines 204-210: `maxRetries` is required,
the remaining fields carry the defaults destructured at lines 223-229. -/
structure RetryOptions where
  maxRetries : Int
  initialDelay : Nat := 100
  maxDelay : Nat := 30000
  backoffMultiplier : Nat := 2
  debug : Bool := false
deriving Repr, DecidableEq

/-- Observable trace of one `retry` run: the outcome (`Except.error none`
models the post-loop `throw lastError` with `lastError` still `undefined`),
the arguments passed to `sleep` in order, the number of callback
invocations, and whether the post-loop `throw lastError` executed. -/
structure RetryTrace (E T : Type) where
  result : Except (Option E) T
  sleeps : List Nat
  calls : Nat
  trailingThrow : Bool
deriving Repr

/-- Loop body of `retry` (src/helpers.ts lines 238-256).  `fuel` is the
number of loop iterations still permitted by the loop condition
`attempt <= maxRetries`; `attempt` is the current 0-based attempt index;
`delay` is the current nominal (uncapped) delay variable; `lastError` holds
the most recent caught error (`none` = `undefined`).  On a caught error the
code throws if `attempt === maxRetries`, otherwise sleeps
`min delay maxDelay` and multiplies `delay` by the backoff multiplier.
Exhausting the fuel models the loop condition failing, reaching the trailing
`throw lastError` at line 256. -/
def retryAux (op : Nat → Except E T) (maxRetries : Int) (maxDelay mult : Nat) :
    Nat → Nat → Nat → Option E → RetryTrace E T
  | 0, _, _, lastError => ⟨Except.error lastError, [], 0, true⟩
  | fuel + 1, attempt, delay, _ =>
      match op attempt with
      | Except.ok v => ⟨Except.ok v, [], 1, false⟩
      | Except.error e =>
          if (attempt : Int) = maxRetries then
            ⟨Except.error (some e), [], 1, false⟩
          else
            let t := retryAux op maxRetries maxDelay mult fuel
              (attempt + 1) (delay * mult) (some e)
            ⟨t.result, min delay maxDelay :: t.sleeps, t.calls + 1, t.trailingThrow⟩

/-- The `retry` function of src/helpers.ts lines 219-257: run the loop from
attempt 0 with `delay = initialDelay` and `lastError` undefined.  The loop
runs at most `(maxRetries + 1).toNat` times. -/
def retry (op : Nat → Except E T) (opts : RetryOptions) : RetryTrace E T :=
  retryAux op opts.maxRetries opts.maxDelay opts.backoffMultiplier
    (opts.maxRetries + 1).toNat 0 opts.initialDelay none

/-- The `addSlippage` helper of src/helpers.ts lines 62-64:
`amount.muln(10_000 + slippageBps).divn(10_000)` on non-negative integers,
with `bn.js` truncating division. -/
def addSlippage (amount : Nat) (slippageBps : Nat) : Nat :=
  amount * (10000 + slippageBps) / 10000

/-- SLIPPAGE_BPS from src/consts.ts. -/
def SLIPPAGE_BPS : Nat := 100

/-- ZERO_SLIPPAGE_THRESHOLD from src/consts.ts (`new BN(0)`). -/
def ZERO_SLIPPAGE_THRESHOLD : Nat := 0

/-- DEPOSIT_AMOUNT from src/consts.ts (`new BN(1_000_000)`). -/
def DEPOSIT_AMOUNT : Nat := 1000000

/-- UserPosition from src/helpers.ts lines 18-22; the ledger-defined handle
types (`PublicKey`, `PositionState`) are opaque type parameters. -/
structure UserPosition (Key PState : Type) where
  positionNftAccount : Key
  position : Key
  positionState : PState
deriving Repr, DecidableEq

/-- Error thrown inside `createPosition`'s read callback when
`getPositionsByUser` returns an empty list (src/helpers.ts line 119). -/
inductive CreateError where
  | positionNotFound
deriving Repr, DecidableEq

/-- The retried read callback of `createPosition` (src/helpers.ts lines
116-122): read the owner's positions (the `attempt`-th read returns
`reads attempt`); throw "Position not found after creation" on an empty
list, otherwise return `userPositions[0]`. -/
def positionsReadOp (reads : Nat → List Pos) : Nat → Except CreateError Pos :=
  fun attempt =>
    match reads attempt with
    | [] => Except.error CreateError.positionNotFound
    | p :: _ => Except.ok p

/-- Retry policy of the visibility loop in `createPosition` (src/helpers.ts
lines 123-128).  The near-duplicate copy of the file uses `maxRetries := 3`
at lines 378-383 with the other fields identical; the surrounding lemmas are
budget-generic, so the same properties hold for that copy. -/
def createPositionRetryOptions : RetryOptions := ⟨8, 1000, 30000, 2, false⟩

/-- The post-confirmation visibility phase of `createPosition`
(src/helpers.ts lines 115-129): retry the positions read under
`createPositionRetryOptions`. -/
def createPositionFetch (reads : Nat → List Pos) : RetryTrace CreateError Pos :=
  retry (positionsReadOp reads) createPositionRetryOptions

/-- Arguments `closePosition` passes to `removeAllLiquidityAndClosePosition`
(src/helpers.ts lines 175-185). -/
structure CloseSubmitParams (Key PState Pool : Type) where
  owner : Key
  position : Key
  positionNftAccount : Key
  poolState : Pool
  positionState : PState
  tokenAAmountThreshold : Nat
  tokenBAmountThreshold : Nat
  vestings : List Nat
  currentPoint : Nat
deriving Repr

/-- Error thrown by `closePosition`'s verification (src/helpers.ts lines
197-201): "Position still exists after close attempt. Found N
position(s)". -/
inductive CloseError where
  | stillExists (count : Nat)
deriving Repr, DecidableEq

/-- Observable outcome of `closePosition`: the submitted write parameters,
the number of `getPositionsByUser` verification reads issued after the
confirmed close write, and the result. -/
structure CloseOutcome (Key PState Pool : Type) where
  submitted : CloseSubmitParams Key PState Pool
  verificationReads : Nat
  result : Except CloseError Unit
deriving Repr

/-- The `closePosition` function (src/helpers.ts lines 166-202), from the
point where the close write is built: it submits the
remove-all-liquidity-and-close write with both thresholds
`ZERO_SLIPPAGE_THRESHOLD`, `vestings: []` and `currentPoint: new BN(0)`,
then (after confirmation, assumed granted since the claims condition on it)
performs one read `postCloseReads 0` of the owner's positions and throws if
it is non-empty, reporting its length. -/
def closePosition (owner : Key) (position : UserPosition Key PState)
    (poolState : Pool)
    (postCloseReads : Nat → List (UserPosition Key PState)) :
    CloseOutcome Key PState Pool :=
  { submitted := ⟨owner, position.position, position.positionNftAccount,
      poolState, position.positionState, ZERO_SLIPPAGE_THRESHOLD,
      ZERO_SLIPPAGE_THRESHOLD, [], 0⟩
    verificationReads := 1
    result :=
      if 0 < (postCloseReads 0).length then
        Except.error (CloseError.stillExists (postCloseReads 0).length)
      else
        Except.ok () }

/-- Run-level error of the `main` driver body. -/
inductive RunError where
  | createFailed (e : Option CreateError)
  | closeStillExists (count : Nat)
deriving Repr, DecidableEq

/-- Lift a `closePosition` error into the driver's error type. -/
def mapCloseResult : Except CloseError Unit → Except RunError Unit
  | Except.ok _ => Except.ok ()
  | Except.error (CloseError.stillExists n) =>
      Except.error (RunError.closeStillExists n)

/-- Ledger responses one `main` iteration can observe: the initial
`getPositionsByUser` read, the pool state read before closing, and the read
sequences after the create and close writes. -/
structure RunEnv (Key PState Pool : Type) where
  initialPositions : List (UserPosition Key PState)
  poolStateAtClose : Pool
  postCreateReads : Nat → List (UserPosition Key PState)
  postCloseReads : Nat → List (UserPosition Key PState)

/-- Observable trace of one `main` iteration: how many deposit quotes were
computed, how many create-and-add-liquidity writes were submitted, which
position was handed to `closePosition`, the submitted close parameters, and
the result. -/
structure RunTrace (Key PState Pool : Type) where
  depositQuotes : Nat
  createWrites : Nat
  closedPosition : Option (UserPosition Key PState)
  closeSubmitted : Option (CloseSubmitParams Key PState Pool)
  result : Except RunError Unit

/-- One iteration of the `main` driver body (src/main.ts lines 46-84): read
the owner's positions; if the list is non-empty take `userPositions[0]` and
proceed directly to close, otherwise fetch the pool state, compute the
deposit quote (its inputs are opaque; only the fact of its computation is
recorded) and run `createPosition`; finally close the obtained position. -/
def runOnce (owner : Key) (env : RunEnv Key PState Pool) :
    RunTrace Key PState Pool :=
  match env.initialPositions with
  | p :: _ =>
      let c := closePosition owner p env.poolStateAtClose env.postCloseReads
      ⟨0, 0, some p, some c.submitted, mapCloseResult c.result⟩
  | [] =>
      match (createPositionFetch env.postCreateReads).result with
      | Except.ok p =>
          let c := closePosition owner p env.poolStateAtClose env.postCloseReads
          ⟨1, 1, some p, some c.submitted, mapCloseResult c.result⟩
      | Except.error e =>
          ⟨1, 1, none, none, Except.error (RunError.createFailed e)⟩

section RetryLemmas

/-- Unfolding: a successful attempt returns immediately. -/
theorem retryAux_succ_ok (op : Nat → Except E T) (mr : Int) (md mult : Nat)
    (fuel attempt delay : Nat) (le : Option E) (v : T)
    (hop : op attempt = Except.ok v) :
    retryAux op mr md mult (fuel + 1) attempt delay le
      = ⟨Except.ok v, [], 1, false⟩ := by
  simp [retryAux, hop]

/-- Unfolding: a failure on the final allowed attempt throws it. -/
theorem retryAux_succ_last (op : Nat → Except E T) (mr : Int) (md mult : Nat)
    (fuel attempt delay : Nat) (le : Option E) (e : E)
    (hop : op attempt = Except.error e) (hlast : (attempt : Int) = mr) :
    retryAux op mr md mult (fuel + 1) attempt delay le
      = ⟨Except.error (some e), [], 1, false⟩ := by
  simp [retryAux, hop, hlast]

/-- Unfolding: a failure before the final attempt sleeps `min delay md` and
continues with the uncapped delay multiplied. -/
theorem retryAux_succ_error (op : Nat → Except E T) (mr : Int) (md mult : Nat)
    (fuel attempt delay : Nat) (le : Option E) (e : E)
    (hop : op attempt = Except.error e) (hlast : ¬((attempt : Int) = mr)) :
    retryAux op mr md mult (fuel + 1) attempt delay le
      = ⟨(retryAux op mr md mult fuel (attempt + 1) (delay * mult) (some e)).result,
         min delay md
           :: (retryAux op mr md mult fuel (attempt + 1) (delay * mult) (some e)).sleeps,
         (retryAux op mr md mult fuel (attempt + 1) (delay * mult) (some e)).calls + 1,
         (retryAux op mr md mult fuel (attempt + 1) (delay * mult) (some e)).trailingThrow⟩ := by
  simp [retryAux, hop, hlast]

/-- The callback is invoked at most once per available loop iteration. -/
theorem retryAux_calls_le (op : Nat → Except E T) (mr : Int) (md mult : Nat) :
    ∀ fuel attempt delay le,
      (retryAux op mr md mult fuel attempt delay le).calls ≤ fuel := by
  intro fuel
  induction fuel with
  | zero => intro attempt delay le; simp [retryAux]
  | succ f ih =>
      intro attempt delay le
      cases hop : op attempt with
      | ok v => simp [retryAux, hop]
      | error e =>
          by_cases hlast : (attempt : Int) = mr
          · simp [retryAux, hop, hlast]
          · simp only [retryAux, hop, if_neg hlast]
            exact Nat.succ_le_succ (ih (attempt + 1) (delay * mult) (some e))

/-- Every recorded sleep follows the uncapped exponential schedule: the
`i`-th sleep performed from nominal delay `delay` is
`min (delay * mult ^ i) md`, because the multiplier compounds on the
uncapped `delay` variable while each applied wait is capped at `md`. -/
theorem retryAux_sleeps (op : Nat → Except E T) (mr : Int) (md mult : Nat) :
    ∀ fuel attempt delay le,
      (retryAux op mr md mult fuel attempt delay le).sleeps
        = List.map (fun i => min (delay * mult ^ i) md)
            (List.range (retryAux op mr md mult fuel attempt delay le).sleeps.length) := by
  intro fuel
  induction fuel with
  | zero => intro attempt delay le; simp [retryAux]
  | succ f ih =>
      intro attempt delay le
      cases hop : op attempt with
      | ok v => simp [retryAux, hop]
      | error e =>
          by_cases hlast : (attempt : Int) = mr
          · simp [retryAux, hop, hlast]
          · simp only [retryAux, hop, if_neg hlast, List.length_cons]
            rw [List.range_succ_eq_map, List.map_cons, List.map_map]
            have hmul : ∀ i : Nat,
                delay * mult ^ (i + 1) = delay * mult * mult ^ i := by
              intro i; rw [pow_succ]; ring
            simp only [Function.comp_def, Nat.succ_eq_add_one, hmul,
              pow_zero, mul_one]
            rw [← ih (attempt + 1) (delay * mult) (some e)]

/-- Exhaustion: when every attempt in the remaining window fails, the loop
throws the error of the last attempt, index `attempt + fuel`, once the
`attempt === maxRetries` check fires there. -/
theorem retryAux_all_fail (op : Nat → Except E T) (mr : Int) (md mult : Nat)
    (errs : Nat → E) :
    ∀ (fuel attempt delay : Nat) (le : Option E), (attempt : Int) + (fuel : Int) = mr →
      (∀ k, attempt ≤ k → k ≤ attempt + fuel → op k = Except.error (errs k)) →
      (retryAux op mr md mult (fuel + 1) attempt delay le).result
        = Except.error (some (errs (attempt + fuel))) := by
  intro fuel
  induction fuel with
  | zero =>
      intro attempt delay le hinv hop
      have hlast : (attempt : Int) = mr := by simpa using hinv
      have hfail := hop attempt le_rfl (Nat.le_refl _)
      simp [retryAux, hfail, hlast]
  | succ f ih =>
      intro attempt delay le hinv hop
      have hfail := hop attempt le_rfl (Nat.le_add_right _ _)
      have hlast : ¬((attempt : Int) = mr) := by
        intro h; rw [h] at hinv; omega
      have hinv' : ((attempt + 1 : Nat) : Int) + f = mr := by push_cast; push_cast at hinv; omega
      have hop' : ∀ k, attempt + 1 ≤ k → k ≤ attempt + 1 + f →
          op k = Except.error (errs k) := by
        intro k hk1 hk2
        exact hop k (Nat.le_of_succ_le hk1) (by omega)
      have hrec := ih (attempt + 1) (delay * mult) (some (errs attempt)) hinv' hop'
      rw [retryAux_succ_error op mr md mult (f + 1) attempt delay le
        (errs attempt) hfail hlast]
      have hidx : attempt + 1 + f = attempt + (f + 1) := by omega
      rw [hidx] at hrec
      exact hrec

/-- First success: if every attempt strictly before index `j` fails and
attempt `j` succeeds with `v`, and `j` lies within the loop window, the loop
returns `v`. -/
theorem retryAux_first_success (op : Nat → Except E T) (mr : Int) (md mult : Nat)
    (v : T) :
    ∀ (fuel attempt delay : Nat) (le : Option E), (attempt : Int) + (fuel : Int) = mr + 1 →
      ∀ j, attempt ≤ j → j < attempt + fuel →
      (∀ k, attempt ≤ k → k < j → ∃ e, op k = Except.error e) →
      op j = Except.ok v →
      (retryAux op mr md mult fuel attempt delay le).result = Except.ok v := by
  intro fuel
  induction fuel with
  | zero => intro attempt delay le hinv j hj1 hj2 hfail hok; omega
  | succ f ih =>
      intro attempt delay le hinv j hj1 hj2 hfail hok
      rcases Nat.eq_or_lt_of_le hj1 with heq | hlt
      · subst heq
        simp [retryAux, hok]
      · obtain ⟨e, he⟩ := hfail attempt le_rfl hlt
        have hlast : ¬((attempt : Int) = mr) := by
          intro h
          have : f = 0 := by omega
          omega
        have hinv' : ((attempt + 1 : Nat) : Int) + f = mr + 1 := by
          push_cast; push_cast at hinv; omega
        have hfail' : ∀ k, attempt + 1 ≤ k → k < j → ∃ e2, op k = Except.error e2 := by
          intro k hk1 hk2
          exact hfail k (Nat.le_of_succ_le hk1) hk2
        have := ih (attempt + 1) (delay * mult) (some e) hinv' j hlt (by omega)
          hfail' hok
        simp only [retryAux, he, if_neg hlast]
        exact this

/-- The trailing `throw lastError` after the loop is unreachable whenever the
fuel matches the `attempt <= maxRetries` window: the final iteration hits the
`attempt === maxRetries` check and throws inside the loop instead. -/
theorem retryAux_no_trailing (op : Nat → Except E T) (mr : Int) (md mult : Nat) :
    ∀ (fuel attempt delay : Nat) (le : Option E), (attempt : Int) + (fuel : Int) = mr + 1 → 1 ≤ fuel →
      (retryAux op mr md mult fuel attempt delay le).trailingThrow = false := by
  intro fuel
  induction fuel with
  | zero => intro attempt delay le hinv hfuel; omega
  | succ f ih =>
      intro attempt delay le hinv hfuel
      cases hop : op attempt with
      | ok v => simp [retryAux, hop]
      | error e =>
          by_cases hlast : (attempt : Int) = mr
          · simp [retryAux, hop, hlast]
          · have hf : 1 ≤ f := by
              rcases Nat.eq_zero_or_pos f with h0 | h1
              · exfalso; rw [h0] at hinv; apply hlast; omega
              · exact h1
            have hinv' : ((attempt + 1 : Nat) : Int) + f = mr + 1 := by
              push_cast; push_cast at hinv; omega
            have := ih (attempt + 1) (delay * mult) (some e) hinv' hf
            simp only [retryAux, hop, if_neg hlast]
            exact this

end RetryLemmas

/-- C1: for every RetryPolicy with `maxRetries ≥ 0` and `multiplier ≥ 1` and
every operation, `retry` invokes the operation at most `maxRetries + 1` times,
and the wait inserted before attempt `k` (`k ≥ 2`, i.e. the `i`-th recorded
sleep with `i = k - 2`) equals `min (initialDelay * multiplier ^ (k - 2))
maxDelay`: the multiplier compounds on the uncapped internal delay variable
while each applied wait is capped at `maxDelay`. -/
theorem retry_attempt_bound_and_wait_schedule (op : Nat → Except E T)
    (opts : RetryOptions) (hmr : 0 ≤ opts.maxRetries)
    (hmult : 1 ≤ opts.backoffMultiplier) :
    (retry op opts).calls ≤ opts.maxRetries.toNat + 1 ∧
    (retry op opts).sleeps
      = List.map
          (fun i => min (opts.initialDelay * opts.backoffMultiplier ^ i) opts.maxDelay)
          (List.range (retry op opts).sleeps.length) := by
  constructor
  · have h := retryAux_calls_le op opts.maxRetries opts.maxDelay
      opts.backoffMultiplier (opts.maxRetries + 1).toNat 0 opts.initialDelay none
    have hfuel : (opts.maxRetries + 1).toNat = opts.maxRetries.toNat + 1 := by omega
    simp only [retry]
    omega
  · exact retryAux_sleeps op opts.maxRetries opts.maxDelay opts.backoffMultiplier
      (opts.maxRetries + 1).toNat 0 opts.initialDelay none

/-- Witness for C1 at a failing operation with `maxRetries = 2`,
`initialDelay = 5`, `maxDelay = 8`, `multiplier = 2`: both hypotheses hold. -/
theorem retry_attempt_bound_and_wait_schedule_witness :
    (retry (fun _ => (Except.error 0 : Except Nat Nat)) ⟨2, 5, 8, 2, false⟩).calls
        ≤ (2 : Int).toNat + 1 ∧
    (retry (fun _ => (Except.error 0 : Except Nat Nat)) ⟨2, 5, 8, 2, false⟩).sleeps
      = List.map (fun i => min (5 * 2 ^ i) 8)
          (List.range
            (retry (fun _ => (Except.error 0 : Except Nat Nat))
              ⟨2, 5, 8, 2, false⟩).sleeps.length) :=
  retry_attempt_bound_and_wait_schedule (fun _ => Except.error 0)
    ⟨2, 5, 8, 2, false⟩ (by decide) (by decide)

/-- C2: for every operation whose every attempt fails and every
`maxRetries ≥ 0`, `retry` rejects with exactly the error thrown by the last
(final) attempt, index `maxRetries` 0-based — not the first attempt's error
and not an aggregate. -/
theorem retry_exhaustion_last_error (op : Nat → Except E T)
    (opts : RetryOptions) (errs : Nat → E) (hmr : 0 ≤ opts.maxRetries)
    (hop : ∀ k, op k = Except.error (errs k)) :
    (retry op opts).result = Except.error (some (errs opts.maxRetries.toNat)) := by
  have hfuel : (opts.maxRetries + 1).toNat = opts.maxRetries.toNat + 1 := by omega
  have h := retryAux_all_fail op opts.maxRetries opts.maxDelay
    opts.backoffMultiplier errs opts.maxRetries.toNat 0 opts.initialDelay none
    (by push_cast; omega) (fun k _ _ => hop k)
  simp only [retry, hfuel]
  simpa using h

/-- Witness for C2: attempt `n` throws the error `n`; with `maxRetries = 2`
the propagated error is `2`, the last attempt's error (not the first, `0`). -/
theorem retry_exhaustion_last_error_witness :
    (retry (fun n => (Except.error n : Except Nat Nat)) ⟨2, 5, 8, 2, false⟩).result
      = Except.error (some 2) :=
  retry_exhaustion_last_error (fun n => Except.error n) ⟨2, 5, 8, 2, false⟩
    (fun n => n) (by decide) (fun _ => rfl)

/-- C6: for every operation, `retry` with `maxRetries = 0` invokes the
operation exactly once, never sleeps, and on failure rejects immediately with
that single attempt's error. -/
theorem retry_zero_retries (op : Nat → Except E T) (opts : RetryOptions)
    (h : opts.maxRetries = 0) :
    (retry op opts).calls = 1 ∧ (retry op opts).sleeps = [] ∧
      ∀ e, op 0 = Except.error e →
        (retry op opts).result = Except.error (some e) := by
  have hfuel : (opts.maxRetries + 1).toNat = 0 + 1 := by rw [h]; rfl
  cases hop : op 0 with
  | ok v =>
      have hr := retryAux_succ_ok op opts.maxRetries opts.maxDelay
        opts.backoffMultiplier 0 0 opts.initialDelay none v hop
      simp only [retry, hfuel, hr]
      refine ⟨trivial, trivial, ?_⟩
      intro e he
      simp at he
  | error e0 =>
      have hlast : ((0 : Nat) : Int) = opts.maxRetries := by rw [h]; rfl
      have hr := retryAux_succ_last op opts.maxRetries opts.maxDelay
        opts.backoffMultiplier 0 0 opts.initialDelay none e0 hop hlast
      simp only [retry, hfuel, hr]
      refine ⟨trivial, trivial, ?_⟩
      intro e he
      injection he with he2
      rw [he2]

/-- Witness for C6 at a single failing operation throwing `7`: one call, no
sleep, immediate rejection with `7`. -/
theorem retry_zero_retries_witness :
    (retry (fun _ => (Except.error 7 : Except Nat Nat)) ⟨0, 5, 8, 2, false⟩).calls = 1 ∧
    (retry (fun _ => (Except.error 7 : Except Nat Nat)) ⟨0, 5, 8, 2, false⟩).sleeps = [] ∧
    (retry (fun _ => (Except.error 7 : Except Nat Nat)) ⟨0, 5, 8, 2, false⟩).result
      = Except.error (some 7) := by
  have h := retry_zero_retries (fun _ => (Except.error 7 : Except Nat Nat))
    ⟨0, 5, 8, 2, false⟩ rfl
  exact ⟨h.1, h.2.1, h.2.2 7 rfl⟩

/-- C7: for every non-negative integer amount and every `bps ≥ 0`,
`addSlippage amount bps` is the floor of `amount * (10000 + bps) / 10000`
(characterised by the two division bounds) under exact integer arithmetic
with truncating division; in particular `addSlippage 1000000 100 = 1010000`
and `addSlippage 0 100 = 0`. -/
theorem addSlippage_spec (amount bps : Nat) :
    addSlippage amount bps * 10000 ≤ amount * (10000 + bps) ∧
    amount * (10000 + bps) < (addSlippage amount bps + 1) * 10000 ∧
    addSlippage amount bps = amount * (10000 + bps) / 10000 ∧
    addSlippage 1000000 100 = 1010000 ∧
    addSlippage 0 100 = 0 := by
  have hdm := Nat.div_add_mod (amount * (10000 + bps)) 10000
  have hlt : amount * (10000 + bps) % 10000 < 10000 :=
    Nat.mod_lt _ (by norm_num)
  unfold addSlippage
  exact ⟨by omega, by omega, rfl, by norm_num, by norm_num⟩

/-- C10: `retry` called with `maxRetries < 0` (outside the spec's
precondition) never invokes the operation, performs no sleep, and rejects via
the trailing post-loop `throw` with the uninitialised `lastError`
(`undefined`, modelled `none`); for every `maxRetries ≥ 0` that trailing
throw is unreachable — the loop body itself returns or throws. -/
theorem retry_negative_maxRetries_trailing_throw (op : Nat → Except E T)
    (opts : RetryOptions) :
    (opts.maxRetries < 0 →
      (retry op opts).calls = 0 ∧
      (retry op opts).result = Except.error none ∧
      (retry op opts).trailingThrow = true) ∧
    (0 ≤ opts.maxRetries → (retry op opts).trailingThrow = false) := by
  constructor
  · intro hneg
    have hfuel : (opts.maxRetries + 1).toNat = 0 := by omega
    simp [retry, hfuel, retryAux]
  · intro hpos
    have hfuel : (opts.maxRetries + 1).toNat = opts.maxRetries.toNat + 1 := by
      omega
    have h := retryAux_no_trailing op opts.maxRetries opts.maxDelay
      opts.backoffMultiplier (opts.maxRetries.toNat + 1) 0 opts.initialDelay
      none (by push_cast; omega) (by omega)
    simp only [retry, hfuel]
    exact h


/-- C3: for every pool state and every position, `closePosition` submits the
remove-all-liquidity-and-close write with both `tokenAAmountThreshold` and
`tokenBAmountThreshold` equal to zero (the `ZERO_SLIPPAGE_THRESHOLD`
constant, not an `addSlippage` application), `vestings = []` and
`currentPoint = 0`, regardless of pool price. -/
theorem closePosition_submits_zero_thresholds {Key PState Pool : Type}
    (owner : Key) (position : UserPosition Key PState) (poolState : Pool)
    (postCloseReads : Nat → List (UserPosition Key PState)) :
    (closePosition owner position poolState postCloseReads).submitted.tokenAAmountThreshold
        = 0 ∧
    (closePosition owner position poolState postCloseReads).submitted.tokenBAmountThreshold
        = 0 ∧
    (closePosition owner position poolState postCloseReads).submitted.vestings = [] ∧
    (closePosition owner position poolState postCloseReads).submitted.currentPoint = 0 :=
  ⟨rfl, rfl, rfl, rfl⟩

/-- C4: after the close write is confirmed, `closePosition` performs exactly
one non-retried read of the owner's positions (its outcome depends only on
read index 0); if that read is empty it succeeds, and if it returns `n > 0`
positions it fails reporting exactly `n`, without any further retry. -/
theorem closePosition_single_read_verification {Key PState Pool : Type}
    (owner : Key) (position : UserPosition Key PState) (poolState : Pool)
    (postCloseReads : Nat → List (UserPosition Key PState)) :
    (closePosition owner position poolState postCloseReads).verificationReads = 1 ∧
    (∀ reads2 : Nat → List (UserPosition Key PState), reads2 0 = postCloseReads 0 →
      closePosition owner position poolState reads2
        = closePosition owner position poolState postCloseReads) ∧
    (postCloseReads 0 = [] →
      (closePosition owner position poolState postCloseReads).result
        = Except.ok ()) ∧
    (∀ n, (postCloseReads 0).length = n → 0 < n →
      (closePosition owner position poolState postCloseReads).result
        = Except.error (CloseError.stillExists n)) := by
  refine ⟨rfl, ?_, ?_, ?_⟩
  · intro reads2 h
    simp [closePosition, h]
  · intro h
    simp [closePosition, h]
  · intro n hn hpos
    subst hn
    simp [closePosition, hpos]

/-- Witness for C4 with a concrete position: an empty post-close read
succeeds, a 1-element post-close read fails reporting 1, and exactly one
verification read is issued. -/
theorem closePosition_single_read_verification_witness :
    (closePosition 0 (⟨1, 2, ()⟩ : UserPosition Nat Unit) ()
        (fun _ => [])).result = Except.ok () ∧
    (closePosition 0 (⟨1, 2, ()⟩ : UserPosition Nat Unit) ()
        (fun _ => [⟨1, 2, ()⟩])).result
      = Except.error (CloseError.stillExists 1) ∧
    (closePosition 0 (⟨1, 2, ()⟩ : UserPosition Nat Unit) ()
        (fun _ => [])).verificationReads = 1 := by
  have h1 := (closePosition_single_read_verification 0
    (⟨1, 2, ()⟩ : UserPosition Nat Unit) () (fun _ => [])).2.2.1 rfl
  have h2 := (closePosition_single_read_verification 0
    (⟨1, 2, ()⟩ : UserPosition Nat Unit) ()
    (fun _ => [⟨1, 2, ()⟩])).2.2.2 1 rfl (by norm_num)
  have h3 := (closePosition_single_read_verification 0
    (⟨1, 2, ()⟩ : UserPosition Nat Unit) () (fun _ => [])).1
  exact ⟨h1, h2, h3⟩

/-- C5: after the create write is confirmed, `createPosition` reads the
owner's positions through `retry` with a bounded budget (`maxRetries = 8`
here; the duplicate copy uses 3): if some read within the budget returns a
non-empty list then the first element of the earliest such list is returned,
and if every read in the budget returns an empty list it fails with the
"position not found after creation" error instead of retrying further. -/
theorem createPosition_visibility_retry (reads : Nat → List Pos) :
    ((∀ k, k ≤ 8 → reads k = []) →
      (createPositionFetch reads).result
        = Except.error (some CreateError.positionNotFound)) ∧
    (∀ j p rest, j ≤ 8 → (∀ k, k < j → reads k = []) → reads j = p :: rest →
      (createPositionFetch reads).result = Except.ok p) := by
  have hfuel : ((8 : Int) + 1).toNat = 8 + 1 := rfl
  constructor
  · intro hempty
    have h := retryAux_all_fail (positionsReadOp reads) 8 30000 2
      (fun _ => CreateError.positionNotFound) 8 0 1000 none (by norm_num)
      (fun k _ hk => by
        simp only [positionsReadOp, hempty k (by omega)])
    simp only [createPositionFetch, retry, createPositionRetryOptions, hfuel]
    exact h
  · intro j p rest hj hbefore hok
    have h := retryAux_first_success (positionsReadOp reads) 8 30000 2 p
      (8 + 1) 0 1000 none (by norm_num) j (Nat.zero_le _) (by omega)
      (fun k _ hk => ⟨CreateError.positionNotFound, by
        simp only [positionsReadOp, hbefore k hk]⟩)
      (by simp only [positionsReadOp, hok])
    simp only [createPositionFetch, retry, createPositionRetryOptions, hfuel]
    exact h

/-- Witness for C5: all-empty reads fail with the position-not-found error;
reads that are empty twice and then contain position `5` return `5`. -/
theorem createPosition_visibility_retry_witness :
    (createPositionFetch (fun _ => ([] : List Nat))).result
      = Except.error (some CreateError.positionNotFound) ∧
    (createPositionFetch (fun n => if n < 2 then ([] : List Nat) else [5])).result
      = Except.ok 5 := by
  have h1 := (createPosition_visibility_retry (fun _ => ([] : List Nat))).1
    (fun _ _ => rfl)
  have h2 := (createPosition_visibility_retry
    (fun n => if n < 2 then ([] : List Nat) else [5])).2 2 5 [] (by norm_num)
    (fun k hk => by simp [hk]) rfl
  exact ⟨h1, h2⟩

/-- C8: if the initial read of the owner's positions at run start is
non-empty, the driver takes the first position of that list and proceeds
directly to close: no create-and-add-liquidity write and no deposit-quote
computation happens in that run. -/
theorem main_existing_position_skips_create {Key PState Pool : Type}
    (owner : Key) (env : RunEnv Key PState Pool)
    (p : UserPosition Key PState) (rest : List (UserPosition Key PState))
    (h : env.initialPositions = p :: rest) :
    (runOnce owner env).createWrites = 0 ∧
    (runOnce owner env).depositQuotes = 0 ∧
    (runOnce owner env).closedPosition = some p := by
  simp [runOnce, h]

/-- Witness for C8: with one pre-existing position the run performs no
create write and no deposit quote and closes exactly that position. -/
theorem main_existing_position_skips_create_witness :
    (runOnce 0 (⟨[⟨1, 2, ()⟩], (), fun _ => [], fun _ => []⟩ :
        RunEnv Nat Unit Unit)).createWrites = 0 ∧
    (runOnce 0 (⟨[⟨1, 2, ()⟩], (), fun _ => [], fun _ => []⟩ :
        RunEnv Nat Unit Unit)).depositQuotes = 0 ∧
    (runOnce 0 (⟨[⟨1, 2, ()⟩], (), fun _ => [], fun _ => []⟩ :
        RunEnv Nat Unit Unit)).closedPosition = some ⟨1, 2, ()⟩ :=
  main_existing_position_skips_create 0 _ ⟨1, 2, ()⟩ [] rfl

/-- Witness for C10: with `maxRetries = -1` the operation is never invoked
and the result is the undefined `lastError`; with `maxRetries = 1` the
trailing throw does not execute. -/
theorem retry_negative_maxRetries_trailing_throw_witness :
    (retry (fun _ => (Except.error 0 : Except Nat Nat)) ⟨-1, 5, 8, 2, false⟩).calls = 0 ∧
    (retry (fun _ => (Except.error 0 : Except Nat Nat)) ⟨-1, 5, 8, 2, false⟩).result
      = Except.error none ∧
    (retry (fun _ => (Except.error 0 : Except Nat Nat)) ⟨1, 5, 8, 2, false⟩).trailingThrow
      = false := by
  have h1 := (retry_negative_maxRetries_trailing_throw
    (fun _ => (Except.error 0 : Except Nat Nat)) ⟨-1, 5, 8, 2, false⟩).1 (by decide)
  have h2 := (retry_negative_maxRetries_trailing_throw
    (fun _ => (Except.error 0 : Except Nat Nat)) ⟨1, 5, 8, 2, false⟩).2 (by decide)
  exact ⟨h1.1, h1.2.1, h2⟩

end MetDamm
